import Mathlib

/-!
Shallow embedding of the resumable block indexer in
`src/indexer/reliable_indexer.py` (class `ReliableIndexer`), together with
theorems settling the specification claims about it.

Modelling conventions:
* SQLite `DATETIME` cells hold ISO strings whose lexicographic order agrees
  with chronological order; timestamps are modelled as `Nat` (POSIX seconds,
  as in `block['timestamp']`), so SQL `MIN`/`MAX` on them is `Nat` `min`/`max`.
* Python arbitrary-precision `int` is `Int`; `TEXT` columns that always hold
  the decimal rendering of an integer (`value`, `gas_price`,
  `total_volume_wei`) are modelled by the integer they denote, since the code
  converts with `str`/`int`/SQL `CAST`, and `str`/`int` are exact.
* SQL `CAST(... AS REAL)` converts to an IEEE-754 binary64 double; on integer
  inputs this is rounding to 53 significant bits (round-to-nearest, ties to
  even), modelled exactly by `floatRound` below.  Values stay far below the
  double overflow threshold `2^1024`, which is therefore not modelled.
* SQLite tables with a primary key are association lists keyed by the primary
  key; `INSERT OR REPLACE` / `ON CONFLICT ... DO UPDATE` replace the row with
  the matching key in place, otherwise append.
* Python `dict`s (the per-batch wallet map) are insertion-ordered association
  lists, matching dict iteration order.
* The worker pool collects fetched blocks in `as_completed` (nondeterministic)
  order; `extract_wallets_from_batch` and `save_batch_to_db` take the list as
  a parameter so any order can be analysed, and `index_range` is modelled with
  the ascending order as one admissible schedule.
-/

namespace Avalytics

/-- A row of the `transactions` table (primary key `tx_hash`), also the shape
of the per-transaction dicts built by `get_block_fast`. -/
structure Tx where
  hash : String
  block_number : Nat
  from_address : String
  to_address : Option String
  value : Int
  gas_price : Int
  gas_used : Nat
  timestamp : Nat
  input_data : String
deriving DecidableEq

/-- The per-block dict returned by `get_block_fast` (the derived `tx_count`
field is `transactions.length` and is not stored separately). -/
structure BlockData where
  block_number : Nat
  timestamp : Nat
  transactions : List Tx
deriving DecidableEq

/-- The per-address delta dict built by `extract_wallets_from_batch`. -/
structure WalletDelta where
  address : String
  first_seen : Nat
  last_seen : Nat
  tx_count : Nat
  volume_wei : Int
deriving DecidableEq

/-- A row of the `wallet_profiles` table (primary key `wallet_address`).
Columns never touched by the indexer (`unique_contracts`, the classification
flags, `avg_tx_value_wei`, `behavior_score`) and the wall-clock `last_updated`
are omitted. -/
structure WalletProfile where
  first_seen : Nat
  last_active : Nat
  total_txs : Int
  total_volume_wei : Int
  is_whale : Bool
deriving DecidableEq

/-- `wallets[k] = v` on a Python dict: overwrite in place if the key exists,
else append. -/
def dictInsert (w : List (String × WalletDelta)) (k : String) (v : WalletDelta) :
    List (String × WalletDelta) :=
  if (w.lookup k).isSome then
    w.map (fun p => if p.1 = k then (k, v) else p)
  else
    w ++ [(k, v)]

/-- One arm of the loop body of `extract_wallets_from_batch`: create the entry
for `addr` if absent, then `tx_count += 1`, `volume_wei += int(tx['value'])`,
and raise `last_seen` to `tx['timestamp']` if larger.  (`first_seen` is set at
creation and never lowered afterwards — exactly as in the source.) -/
def touchWallet (w : List (String × WalletDelta)) (addr : String) (tx : Tx) :
    List (String × WalletDelta) :=
  let d := match w.lookup addr with
    | some d => d
    | none =>
        { address := addr, first_seen := tx.timestamp, last_seen := tx.timestamp,
          tx_count := 0, volume_wei := 0 }
  let d := { d with
    tx_count := d.tx_count + 1,
    volume_wei := d.volume_wei + tx.value,
    last_seen := if d.last_seen < tx.timestamp then tx.timestamp else d.last_seen }
  dictInsert w addr d

/-- Process one transaction: the sender, then (when present) the recipient. -/
def processTx (w : List (String × WalletDelta)) (tx : Tx) :
    List (String × WalletDelta) :=
  let w := touchWallet w tx.from_address tx
  match tx.to_address with
  | some to_addr => touchWallet w to_addr tx
  | none => w

/-- `ReliableIndexer.extract_wallets_from_batch`: fold every transaction of
every (non-`None`) block into the per-address delta dict. -/
def extract_wallets_from_batch (blocks_data : List (Option BlockData)) :
    List (String × WalletDelta) :=
  blocks_data.foldl
    (fun w ob => match ob with
      | none => w
      | some b => b.transactions.foldl processTx w)
    []

/-- Floor of the base-2 logarithm, by structural recursion on a fuel bound
(any fuel of at least `log2 n` steps is enough; doubles cannot even represent
magnitudes of `2^1024` and up, so 1100 steps cover every value in range). -/
def log2Aux : Nat → Nat → Nat
  | 0, _ => 0
  | fuel + 1, n => if 2 ≤ n then log2Aux fuel (n / 2) + 1 else 0

/-- `Nat.log2` as a kernel-computable function. -/
def natLog2 (n : Nat) : Nat := log2Aux 1100 n

/-- Round `m / 2^e` to the nearest integer, ties to even (`e ≥ 1`). -/
def roundEvenDiv (m e : Nat) : Nat :=
  let q := m / 2 ^ e
  let r := m % 2 ^ e
  let half := 2 ^ (e - 1)
  if r < half then q
  else if half < r then q + 1
  else if q % 2 = 0 then q else q + 1

/-- Conversion of an integer to an IEEE-754 binary64 double (SQLite `REAL`),
i.e. rounding to 53 significant bits, nearest, ties to even.  Magnitudes up to
`2^53` are exact. -/
def floatRound (n : Int) : Int :=
  let m := n.natAbs
  if m ≤ 2 ^ 53 then n
  else
    let e := natLog2 m - 52
    Int.sign n * (roundEvenDiv m e * 2 ^ e)

/-- The `total_volume_wei` produced by the `ON CONFLICT` update:
`CAST(COALESCE(total_volume_wei,'0') AS REAL) + CAST(excluded.total_volume_wei
AS REAL)` — both operands become doubles, and the double addition rounds the
exact sum. -/
def realMergedVolume (stored delta : Int) : Int :=
  floatRound (floatRound stored + floatRound delta)

/-- The profile row inserted for a fresh address by `save_batch_to_db`
(`is_whale` from the exact Python comparison `volume_wei >= int(threshold)`). -/
def insertProfile (threshold : Int) (d : WalletDelta) : WalletProfile :=
  { first_seen := d.first_seen, last_active := d.last_seen,
    total_txs := (d.tx_count : Int), total_volume_wei := d.volume_wei,
    is_whale := threshold ≤ d.volume_wei }

/-- The `ON CONFLICT(wallet_address) DO UPDATE` arm of `save_batch_to_db`:
min/max the timestamps, add the counts, add the volumes through `REAL`, and
set `is_whale` when the `REAL` sum reaches the `REAL`-cast threshold, else
keep the stored flag. -/
def mergeProfile (threshold : Int) (p : WalletProfile) (d : WalletDelta) :
    WalletProfile :=
  let sum := realMergedVolume p.total_volume_wei d.volume_wei
  { first_seen := min p.first_seen d.first_seen,
    last_active := max p.last_active d.last_seen,
    total_txs := p.total_txs + (d.tx_count : Int),
    total_volume_wei := sum,
    is_whale := if floatRound threshold ≤ sum then true else p.is_whale }

/-- Upsert one wallet delta into the `wallet_profiles` table. -/
def upsertProfile (threshold : Int) (tbl : List (String × WalletProfile))
    (addr : String) (d : WalletDelta) : List (String × WalletProfile) :=
  match tbl.lookup addr with
  | some p => tbl.map (fun q => if q.1 = addr then (addr, mergeProfile threshold p d) else q)
  | none => tbl ++ [(addr, insertProfile threshold d)]

/-- `INSERT OR REPLACE INTO transactions`: keyed by `tx_hash`. -/
def upsertTx (tbl : List (String × Tx)) (tx : Tx) : List (String × Tx) :=
  if (tbl.lookup tx.hash).isSome then
    tbl.map (fun q => if q.1 = tx.hash then (tx.hash, tx) else q)
  else
    tbl ++ [(tx.hash, tx)]

/-- The persistent store: the two tables plus the `indexer_state` checkpoint
row (`none` when the row was never written; `get_checkpoint` then yields 0).
The redundant JSON checkpoint file always holds the same value as the table
and is not modelled separately. -/
structure DBState where
  transactions : List (String × Tx)
  wallet_profiles : List (String × WalletProfile)
  checkpoint : Option Nat
deriving DecidableEq

/-- The empty, freshly `_init_db`-initialised store. -/
def emptyDB : DBState := { transactions := [], wallet_profiles := [], checkpoint := none }

/-- The transaction-insert loop of `save_batch_to_db`: upsert every
transaction of every (non-`None`) block. -/
def writeTxRows (tbl : List (String × Tx)) (blocks_data : List (Option BlockData)) :
    List (String × Tx) :=
  blocks_data.foldl
    (fun t ob => match ob with
      | none => t
      | some b => b.transactions.foldl upsertTx t)
    tbl

/-- The wallet-upsert loop of `save_batch_to_db`, in dict iteration order. -/
def mergeWalletRows (threshold : Int) (tbl : List (String × WalletProfile))
    (wallets : List (String × WalletDelta)) : List (String × WalletProfile) :=
  wallets.foldl (fun t p => upsertProfile threshold t p.1 p.2) tbl

/-- `ReliableIndexer.save_batch_to_db`: upsert every transaction of every
block, then upsert every wallet delta; one committed SQLite transaction. -/
def save_batch_to_db (threshold : Int) (db : DBState)
    (blocks_data : List (Option BlockData)) (wallets : List (String × WalletDelta)) :
    DBState :=
  { db with
    transactions := writeTxRows db.transactions blocks_data,
    wallet_profiles := mergeWalletRows threshold db.wallet_profiles wallets }

/-- `ReliableIndexer.get_checkpoint`: the stored row, or 0 when absent. -/
def get_checkpoint (db : DBState) : Nat := db.checkpoint.getD 0

/-- `ReliableIndexer.save_checkpoint`: unconditional `INSERT OR REPLACE`. -/
def save_checkpoint (db : DBState) (block_number : Nat) : DBState :=
  { db with checkpoint := some block_number }

/-- The constants of `Config` that the indexing logic reads
(`whale_threshold_wei` is `int(WHALE_THRESHOLD * 1e18)`). -/
structure Config where
  batch_size : Nat
  max_workers : Nat
  max_retries : Nat
  base_delay : Nat
  max_delay : Nat
  whale_threshold_wei : Int

/-- The source's default configuration: `BATCH_SIZE = 100`, `MAX_WORKERS = 8`,
`MAX_RETRIES = 5`, `BASE_DELAY = 1`, `MAX_DELAY = 60`,
`int(1000 * 1e18) = 10^21` wei. -/
def sourceConfig : Config :=
  { batch_size := 100, max_workers := 8, max_retries := 5,
    base_delay := 1, max_delay := 60, whale_threshold_wei := 10 ^ 21 }

/-- Loop body of `ReliableIndexer.index_range`, one batch per step.  `fetch`
is `get_block_fast` (returning `none` on a soft per-height failure); the fuel
is the batch counter bound `end_block + 1 - batch_start`, always sufficient
when `batch_size ≥ 1`. -/
def index_range_go (cfg : Config) (fetch : Nat → Option BlockData) :
    Nat → DBState → Nat → Nat → DBState
  | 0, db, _, _ => db
  | fuel + 1, db, batch_start, end_block =>
    if end_block < batch_start then db
    else
      let batch_end := min (batch_start + cfg.batch_size - 1) end_block
      let blocks_data :=
        ((List.range' batch_start (batch_end + 1 - batch_start)).filterMap fetch).map some
      let wallets := extract_wallets_from_batch blocks_data
      let db1 := save_batch_to_db cfg.whale_threshold_wei db blocks_data wallets
      let db2 := save_checkpoint db1 batch_end
      index_range_go cfg fetch fuel db2 (batch_end + 1) end_block

/-- `ReliableIndexer.index_range` (its effect on the store; the returned
progress counters are not modelled). -/
def index_range (cfg : Config) (fetch : Nat → Option BlockData) (db : DBState)
    (start_block end_block : Nat) : DBState :=
  index_range_go cfg fetch (end_block + 1 - start_block) db start_block end_block

/-- Observable persistence actions of one `index_range` run: the committed
`save_batch_to_db` transaction and the `save_checkpoint` write of a batch,
each tagged with that batch's last height. -/
inductive IndexEvent where
  | persistEv (batch_end : Nat)
  | checkpointEv (batch_end : Nat)
deriving DecidableEq

/-- `index_range` with a persistence-failure oracle: `persist_ok bs` says
whether the `save_batch_to_db` commit of the batch starting at `bs` succeeds.
On failure the SQLite exception propagates out of `index_range` (there is no
handler around `save_batch_to_db`), the open implicit transaction is rolled
back, and `save_checkpoint` for that batch is never reached: the run ends with
the store exactly as before the batch.  Returns the final store, the ordered
event trace, and whether the run completed. -/
def index_range_run (cfg : Config) (fetch : Nat → Option BlockData)
    (persist_ok : Nat → Bool) :
    Nat → DBState → Nat → Nat → DBState × List IndexEvent × Bool
  | 0, db, _, _ => (db, [], true)
  | fuel + 1, db, batch_start, end_block =>
    if end_block < batch_start then (db, [], true)
    else
      let batch_end := min (batch_start + cfg.batch_size - 1) end_block
      let blocks_data :=
        ((List.range' batch_start (batch_end + 1 - batch_start)).filterMap fetch).map some
      let wallets := extract_wallets_from_batch blocks_data
      if persist_ok batch_start then
        let db1 := save_batch_to_db cfg.whale_threshold_wei db blocks_data wallets
        let db2 := save_checkpoint db1 batch_end
        let rest := index_range_run cfg fetch persist_ok fuel db2 (batch_end + 1) end_block
        (rest.1, .persistEv batch_end :: .checkpointEv batch_end :: rest.2.1, rest.2.2)
      else
        (db, [], false)

/-- `index_range_run` at its entry fuel, as `index_range` calls the loop. -/
def index_range_chk (cfg : Config) (fetch : Nat → Option BlockData)
    (persist_ok : Nat → Bool) (db : DBState) (start_block end_block : Nat) :
    DBState × List IndexEvent × Bool :=
  index_range_run cfg fetch persist_ok (end_block + 1 - start_block) db start_block end_block

/-- The checkpoint heights written in a trace, in order. -/
def checkpointsOf (evs : List IndexEvent) : List Nat :=
  evs.filterMap (fun e => match e with
    | .checkpointEv b => some b
    | .persistEv _ => none)

/-- Replay only the checkpoint writes of a trace onto an initial checkpoint
cell: the cell ends at the last checkpoint write, if any. -/
def replayCheckpoint (init : Option Nat) (evs : List IndexEvent) : Option Nat :=
  evs.foldl
    (fun acc e => match e with
      | .checkpointEv b => some b
      | .persistEv _ => acc)
    init

/-- Does `needle` occur as a leading segment of `hay`? -/
def leadsList : List Char → List Char → Bool
  | [], _ => true
  | _ :: _, [] => false
  | n :: ns, h :: hs => n == h && leadsList ns hs

/-- Does `needle` occur as a contiguous segment of `hay`?  (Python `in`.) -/
def findSub (needle : List Char) : List Char → Bool
  | [] => leadsList needle []
  | h :: hs => leadsList needle (h :: hs) || findSub needle hs

/-- Python `sub in s`. -/
def containsSub (s sub : String) : Bool := findSub sub.data s.data

/-- Python `str.lower()` (ASCII case folding, as in the addresses and error
texts the indexer lowercases). -/
def lowerString (s : String) : String := ⟨s.data.map Char.toLower⟩

/-- Python `s[:100]` — string truncation to at most 100 characters. -/
def truncate100 (s : String) : String := ⟨s.data.take 100⟩

/-- The first classification in `_retry_with_backoff`:
`'429' in error_str or 'timeout' in error_str or 'rate' in error_str`,
on `error_str = str(e).lower()`. -/
def isRetryableErr (msg : String) : Bool :=
  containsSub (lowerString msg) "429" || containsSub (lowerString msg) "timeout" ||
    containsSub (lowerString msg) "rate"

/-- The second classification: `'connection' in error_str`. -/
def isConnectionErr (msg : String) : Bool :=
  containsSub (lowerString msg) "connection"

/-- The raw transaction object of `w3.eth.get_block(..., full_transactions=True)`
(the fields `get_block_fast` reads). -/
structure RawTx where
  hash : String
  from_addr : String
  to_addr : Option String
  value : Int
  gasPrice : Int
  gas : Nat
  input : String
deriving DecidableEq

/-- The raw block object (the fields `get_block_fast` reads). -/
structure RawBlock where
  timestamp : Nat
  transactions : List RawTx
deriving DecidableEq

/-- One attempt of the wrapped RPC operation: a value, or an exception whose
`str(e).lower()` is `msg`. -/
inductive Attempt where
  | success (b : RawBlock)
  | failure (msg : String)
deriving DecidableEq

/-- How a `_retry_with_backoff` call ends. -/
inductive RetryResult where
  | ok (b : RawBlock)
  | maxRetriesExceeded
  | fatalErr (msg : String)
deriving DecidableEq

/-- Observable actions of `_retry_with_backoff`: starting an attempt against
the endpoint the wrapped operation is bound to, `time.sleep(seconds)`, and
`_switch_rpc` setting `current_rpc_index` to a new value. -/
inductive RetryEvent where
  | attemptEv (rpc_index : Nat)
  | sleepEv (seconds : Nat)
  | switchEv (rpc_index : Nat)
deriving DecidableEq

/-- Loop body of `_retry_with_backoff`.  `outcomes k r` is what the wrapped
operation does on attempt `k` when run against endpoint `r`
(`n_endpoints = len(Config.RPC_ENDPOINTS)`); the fuel is the remaining
attempts out of `MAX_RETRIES`.  The caller evaluates the operation —
`self.w3.eth.get_block`, a method bound to the current `Web3` object —
BEFORE the loop, so every attempt of one call runs against `entry_rpc`, the
endpoint current at entry; `_switch_rpc` only reassigns `self.w3` and
`current_rpc_index` (the `rpc` state here), which affects later calls, never
the remaining attempts of this one.  A retryable error sleeps `delay`,
doubles it up to `MAX_DELAY`, and from attempt index 2 on also switches; a
connection error switches and sleeps 1s; anything else is re-raised. -/
def retry_go (cfg : Config) (n_endpoints : Nat) (outcomes : Nat → Nat → Attempt)
    (entry_rpc : Nat) :
    Nat → Nat → Nat → Nat → RetryResult × List RetryEvent
  | 0, _, _, _ => (.maxRetriesExceeded, [])
  | remaining + 1, attempt, delay, rpc =>
    match outcomes attempt entry_rpc with
    | .success b => (.ok b, [.attemptEv entry_rpc])
    | .failure msg =>
      if isRetryableErr msg then
        let delay' := min (delay * 2) cfg.max_delay
        if 2 ≤ attempt then
          let rpc' := (rpc + 1) % n_endpoints
          let rest :=
            retry_go cfg n_endpoints outcomes entry_rpc remaining (attempt + 1) delay' rpc'
          (rest.1, .attemptEv entry_rpc :: .sleepEv delay :: .switchEv rpc' :: rest.2)
        else
          let rest :=
            retry_go cfg n_endpoints outcomes entry_rpc remaining (attempt + 1) delay' rpc
          (rest.1, .attemptEv entry_rpc :: .sleepEv delay :: rest.2)
      else if isConnectionErr msg then
        let rpc' := (rpc + 1) % n_endpoints
        let rest :=
          retry_go cfg n_endpoints outcomes entry_rpc remaining (attempt + 1) delay rpc'
        (rest.1, .attemptEv entry_rpc :: .switchEv rpc' :: .sleepEv 1 :: rest.2)
      else
        (.fatalErr msg, [.attemptEv entry_rpc])

/-- `ReliableIndexer._retry_with_backoff` from attempt 0, `delay = BASE_DELAY`;
`rpc` is `current_rpc_index` at call time, which is both the endpoint the
operation was just bound to and the initial switch state. -/
def retry_with_backoff (cfg : Config) (n_endpoints : Nat)
    (outcomes : Nat → Nat → Attempt) (rpc : Nat) : RetryResult × List RetryEvent :=
  retry_go cfg n_endpoints outcomes rpc cfg.max_retries 0 cfg.base_delay rpc

/-- The sleep durations in a retry trace, in order. -/
def sleepsOf (evs : List RetryEvent) : List Nat :=
  evs.filterMap (fun e => match e with
    | .sleepEv d => some d
    | _ => none)

/-- The endpoint switches in a retry trace, in order. -/
def switchesOf (evs : List RetryEvent) : List Nat :=
  evs.filterMap (fun e => match e with
    | .switchEv r => some r
    | _ => none)

/-- The endpoint index used by each attempt in a retry trace, in order. -/
def attemptsOf (evs : List RetryEvent) : List Nat :=
  evs.filterMap (fun e => match e with
    | .attemptEv r => some r
    | _ => none)

/-- Normalisation of one raw transaction in `get_block_fast`: addresses are
lower-cased, the input payload is truncated to 100, the value and gas price
are rendered as decimal strings (kept as the integers they denote). -/
def normalizeTx (block_number ts : Nat) (tx : RawTx) : Tx :=
  { hash := tx.hash,
    block_number := block_number,
    from_address := lowerString tx.from_addr,
    to_address := tx.to_addr.map lowerString,
    value := tx.value,
    gas_price := tx.gasPrice,
    gas_used := tx.gas,
    timestamp := ts,
    input_data := if 100 < tx.input.length then truncate100 tx.input else tx.input }

/-- The block dict `get_block_fast` builds from a fetched raw block. -/
def normalizeBlock (block_number : Nat) (b : RawBlock) : BlockData :=
  { block_number := block_number, timestamp := b.timestamp,
    transactions := b.transactions.map (normalizeTx block_number b.timestamp) }

/-- `ReliableIndexer.get_block_fast`: run the fetch through
`_retry_with_backoff`; the surrounding `try/except` turns every exception —
including `MaxRetriesExceeded` and re-raised fatal errors — into `None`. -/
def get_block_fast (cfg : Config) (n_endpoints : Nat)
    (outcomes : Nat → Nat → Attempt) (rpc : Nat) (block_number : Nat) :
    Option BlockData :=
  match (retry_with_backoff cfg n_endpoints outcomes rpc).1 with
  | .ok b => some (normalizeBlock block_number b)
  | _ => none

/-- The range `resume_indexing` hands to `index_range`, or `none` for the
no-op branch: with checkpoint `last` and resolved target `target`, a `last ≥
target` run does nothing, a positive checkpoint resumes at `last + 1`, and a
zero checkpoint starts at the hard-coded `max(0, target - 10000)`. -/
def resume_range (last target : Nat) : Option (Nat × Nat) :=
  if target ≤ last then none
  else if 0 < last then some (last + 1, target)
  else some (max 0 (target - 10000), target)

/-- `ReliableIndexer.resume_indexing`: `head` is `w3.eth.block_number`;
`target_block or head` resolves a `None` or `0` argument to `head`. -/
def resume_indexing (cfg : Config) (fetch : Nat → Option BlockData)
    (head : Nat) (target_block : Option Nat) (db : DBState) : DBState :=
  let target := match target_block with
    | some t => if t = 0 then head else t
    | none => head
  match resume_range (get_checkpoint db) target with
  | none => db
  | some (s, t) => index_range cfg fetch db s t

/-- `ReliableIndexer.index_latest`: index the last `num_blocks` blocks below
the chain head. -/
def index_latest (cfg : Config) (fetch : Nat → Option BlockData)
    (head : Nat) (num_blocks : Nat) (db : DBState) : DBState :=
  index_range cfg fetch db (max 0 (head - num_blocks)) head

/-! Concrete inputs for the evaluation theorems. -/

/-- A single 7-wei transaction from `0xa` at height 100. -/
def txC1 : Tx :=
  { hash := "0x1", block_number := 100, from_address := "0xa", to_address := none,
    value := 7, gas_price := 1, gas_used := 21000, timestamp := 5, input_data := "" }

/-- A chain whose only non-empty height is 100, holding just `txC1`. -/
def fetchC1 : Nat → Option BlockData := fun h =>
  if h = 100 then some { block_number := 100, timestamp := 5, transactions := [txC1] }
  else none

/-- First observation of `0xb` in batch order: height 101, timestamp 20. -/
def txC2a : Tx :=
  { hash := "0x2a", block_number := 101, from_address := "0xb", to_address := none,
    value := 0, gas_price := 1, gas_used := 21000, timestamp := 20, input_data := "" }

/-- Second observation of `0xb` in batch order: height 100, timestamp 10. -/
def txC2b : Tx :=
  { hash := "0x2b", block_number := 100, from_address := "0xb", to_address := none,
    value := 0, gas_price := 1, gas_used := 21000, timestamp := 10, input_data := "" }

/-- A batch whose worker pool completed block 101 before block 100 (the
`as_completed` collection order), so the later-timestamped transaction is
processed first. -/
def blocksC2 : List (Option BlockData) :=
  [some { block_number := 101, timestamp := 20, transactions := [txC2a] },
   some { block_number := 100, timestamp := 10, transactions := [txC2b] }]

/-- A stored profile whose accumulated volume is `2^53` wei. -/
def profC4 : WalletProfile :=
  { first_seen := 0, last_active := 0, total_txs := 1,
    total_volume_wei := 2 ^ 53, is_whale := false }

/-- An incoming one-transaction delta of 1 wei for the same address. -/
def deltaC4 : WalletDelta :=
  { address := "0xc", first_seen := 0, last_seen := 0, tx_count := 1, volume_wei := 1 }

/-- A store holding a whale-flagged profile whose accumulated volume is below
the threshold, so a merge must take the flag-keeping `CASE` branch. -/
def dbC5 : DBState :=
  { transactions := [],
    wallet_profiles :=
      [("0xd", { first_seen := 0, last_active := 0, total_txs := 1,
                 total_volume_wei := 0, is_whale := true })],
    checkpoint := none }

/-- A zero-volume delta for the whale-flagged address. -/
def deltaC5 : WalletDelta :=
  { address := "0xd", first_seen := 3, last_seen := 3, tx_count := 1, volume_wei := 0 }

/-- A transaction at height 0, to witness that a fresh resume reaches genesis. -/
def txC8 : Tx :=
  { hash := "0x8", block_number := 0, from_address := "0xe", to_address := none,
    value := 1, gas_price := 1, gas_used := 21000, timestamp := 1, input_data := "" }

/-- A chain whose only non-empty height is 0. -/
def fetchC8 : Nat → Option BlockData := fun h =>
  if h = 0 then some { block_number := 0, timestamp := 1, transactions := [txC8] }
  else none

/-- A store whose checkpoint row holds 5. -/
def dbC8 : DBState := { transactions := [], wallet_profiles := [], checkpoint := some 5 }

/-- The transaction of the scenario's height 100. -/
def txC6 : Tx :=
  { hash := "0x6", block_number := 100, from_address := "0xf", to_address := none,
    value := 3, gas_price := 1, gas_used := 21000, timestamp := 2, input_data := "" }

/-- A fetcher on which exactly height 102 soft-fails; height 100 carries one
transaction. -/
def fetchC6 : Nat → Option BlockData := fun h =>
  if h = 102 then none
  else some { block_number := h, timestamp := h,
              transactions := if h = 100 then [txC6] else [] }

/-- An RPC whose every attempt raises a rate-limit error, so the retry
executor exhausts all `MAX_RETRIES` attempts. -/
def outcomesC7 : Nat → Nat → Attempt := fun _ _ => .failure "429 too many requests"

/-- The transaction of height 100 in the C7 run. -/
def txC7 : Tx :=
  { hash := "0x7", block_number := 100, from_address := "0xaa", to_address := none,
    value := 2, gas_price := 1, gas_used := 21000, timestamp := 1, input_data := "" }

/-- A fetcher where height 102 goes through `get_block_fast` against the
always-rate-limited RPC (so its retries exhaust), while the other heights
fetch normally. -/
def fetchC7 : Nat → Option BlockData := fun h =>
  if h = 102 then get_block_fast sourceConfig 4 outcomesC7 0 h
  else some { block_number := h, timestamp := h,
              transactions := if h = 100 then [txC7] else [] }

/-- An attempt outcome that raises an error classified as retryable
(rate limit or timeout). -/
def isRetryFailure (a : Attempt) : Prop :=
  ∃ msg, a = .failure msg ∧ isRetryableErr msg = true

/-- The event trace `retry_go` produces while every attempt keeps failing
retryably: each attempt logs the bound endpoint `er` and the sleep, and from
attempt index 2 on also a `current_rpc_index` switch (whose state `r` evolves
independently of the attempts). -/
def allRetryTrace (M nE er : Nat) : Nat → Nat → Nat → Nat → List RetryEvent
  | 0, _, _, _ => []
  | rem + 1, a, d, r =>
    if 2 ≤ a then
      .attemptEv er :: .sleepEv d :: .switchEv ((r + 1) % nE) ::
        allRetryTrace M nE er rem (a + 1) (min (d * 2) M) ((r + 1) % nE)
    else
      .attemptEv er :: .sleepEv d :: allRetryTrace M nE er rem (a + 1) (min (d * 2) M) r

/-- The successive sleep delays from a given current delay: each sleep uses
the current delay, which then doubles capped at `M`. -/
def delaysChain (M : Nat) : Nat → Nat → List Nat
  | _, 0 => []
  | d, rem + 1 => d :: delaysChain M (min (d * 2) M) rem

/-- An RPC raising a rate-limit error on every attempt. -/
def outcomesC9 : Nat → Nat → Attempt := fun _ _ => .failure "429 rate limited"

/-- An RPC raising an error that is neither retryable nor a connection
failure. -/
def outcomesC9fatal : Nat → Nat → Attempt := fun _ _ => .failure "bad block data"

/-- A raw block returned by the healthy endpoints in the endpoint-switch
counterexample. -/
def rawC9 : RawBlock := { timestamp := 1, transactions := [] }

/-- An operation that is rate-limited on endpoint 0 but succeeds on every
other endpoint. -/
def outcomesC9sw : Nat → Nat → Attempt := fun _ r =>
  if r = 0 then .failure "429 rate limited" else .success rawC9

/-- C1 (Idempotent re-indexing).  The claim is FALSE on the code: transaction
rows are idempotent under re-indexing (`INSERT OR REPLACE` keyed by hash), but
the wallet-profile merge accumulates unconditionally, so running `index_range`
over the same range `[100,100]` twice doubles `total_txs` (1 → 2) and
`total_volume_wei` (7 → 14) for the touched address — double-counting that the
spec explicitly forbids. -/
theorem reindex_double_counts_wallets :
    ((index_range sourceConfig fetchC1 (index_range sourceConfig fetchC1 emptyDB 100 100)
          100 100).transactions =
        (index_range sourceConfig fetchC1 emptyDB 100 100).transactions) ∧
    (((index_range sourceConfig fetchC1 emptyDB 100 100).wallet_profiles.lookup "0xa").map
        (fun p => (p.total_txs, p.total_volume_wei)) = some (1, 7)) ∧
    (((index_range sourceConfig fetchC1 (index_range sourceConfig fetchC1 emptyDB 100 100)
            100 100).wallet_profiles.lookup "0xa").map
        (fun p => (p.total_txs, p.total_volume_wei)) = some (2, 14)) ∧
    (some ((2 : Int), (14 : Int)) ≠ some ((1 : Int), (7 : Int))) := by decide

/-- C2 (Accumulation correctness).  The `first_seen = min over all
observations` part is FALSE on the code: `extract_wallets_from_batch` sets
`first_seen` from the first transaction it happens to encounter and never
lowers it, so in a batch whose blocks arrive out of height order (completion
order of the worker pool) the persisted `first_seen` is 20 while the minimum
observed timestamp is 10. -/
theorem batch_first_seen_not_min :
    (((blocksC2.filterMap id).flatMap BlockData.transactions).map Tx.timestamp = [20, 10]) ∧
    ((([20, 10] : List Nat).min?) = some 10) ∧
    (((extract_wallets_from_batch blocksC2).lookup "0xb").map WalletDelta.first_seen =
      some 20) ∧
    (((save_batch_to_db sourceConfig.whale_threshold_wei emptyDB blocksC2
            (extract_wallets_from_batch blocksC2)).wallet_profiles.lookup "0xb").map
        WalletProfile.first_seen = some 20) ∧
    ((20 : Nat) ≠ 10) := by decide

/-- C4 (Arbitrary-precision volume arithmetic).  FALSE on the code: the `ON
CONFLICT` update adds volumes through `CAST(... AS REAL)`, i.e. IEEE binary64
doubles.  Merging a stored volume of `2^53` wei with a 1-wei delta yields
`2^53` — the exact big-integer sum `2^53 + 1` is unrepresentable and the wei
is lost. -/
theorem merge_volume_through_float :
    (profC4.total_volume_wei + deltaC4.volume_wei = 2 ^ 53 + 1) ∧
    (realMergedVolume (2 ^ 53) 1 = 2 ^ 53) ∧
    ((mergeProfile sourceConfig.whale_threshold_wei profC4 deltaC4).total_volume_wei =
      2 ^ 53) ∧
    ((2 : Int) ^ 53 + 1 ≠ 2 ^ 53) := by decide

/-! Lookup lemmas for the association-list tables. -/

theorem lookup_cons_pair {β : Type} (k : String) (v : β) (l : List (String × β))
    (a : String) :
    ((k, v) :: l).lookup a = if a = k then some v else l.lookup a := by
  by_cases h : a = k
  · subst h; simp [List.lookup]
  · have hb : (a == k) = false := beq_eq_false_iff_ne.mpr h
    simp [List.lookup, hb, h]

theorem lookup_keyReplace {β : Type} (tbl : List (String × β)) (addr a : String)
    (m : β) :
    (tbl.map (fun q => if q.1 = addr then (addr, m) else q)).lookup a =
      if a = addr then (tbl.lookup a).map (fun _ => m) else tbl.lookup a := by
  induction tbl with
  | nil => by_cases h : a = addr <;> simp [List.lookup, h]
  | cons hd tl ih =>
    obtain ⟨k, v⟩ := hd
    by_cases hk : k = addr <;> by_cases ha : a = k <;>
      (first
        | (simp [lookup_cons_pair, hk, ha, ih]; simp_all)
        | simp [lookup_cons_pair, hk, ha, ih])

theorem lookup_append_isSome {β : Type} (l1 l2 : List (String × β)) (a : String)
    (h : (l1.lookup a).isSome = true) : (l1 ++ l2).lookup a = l1.lookup a := by
  induction l1 with
  | nil => simp [List.lookup] at h
  | cons hd tl ih =>
    obtain ⟨k, v⟩ := hd
    rw [List.cons_append, lookup_cons_pair, lookup_cons_pair] at *
    by_cases ha : a = k
    · rw [if_pos ha, if_pos ha]
    · rw [if_neg ha] at h ⊢
      rw [if_neg ha]
      exact ih h

theorem lookup_append_none {β : Type} (l1 l2 : List (String × β)) (a : String)
    (h : l1.lookup a = none) : (l1 ++ l2).lookup a = l2.lookup a := by
  induction l1 with
  | nil => simp
  | cons hd tl ih =>
    obtain ⟨k, v⟩ := hd
    rw [List.cons_append, lookup_cons_pair] at *
    by_cases ha : a = k
    · rw [if_pos ha] at h; cases h
    · rw [if_neg ha] at h ⊢
      exact ih h

/-- The `ON CONFLICT` arm never clears a stored whale flag: the `CASE` either
sets 1 or keeps `is_whale`. -/
theorem mergeProfile_keeps_whale (threshold : Int) (p : WalletProfile)
    (d : WalletDelta) (h : p.is_whale = true) :
    (mergeProfile threshold p d).is_whale = true := by
  simp only [mergeProfile]
  split <;> simp [h]

theorem upsertProfile_keeps_whale (threshold : Int)
    (tbl : List (String × WalletProfile)) (addr a : String) (d : WalletDelta)
    (h : (tbl.lookup a).map WalletProfile.is_whale = some true) :
    ((upsertProfile threshold tbl addr d).lookup a).map WalletProfile.is_whale =
      some true := by
  unfold upsertProfile
  cases hl : tbl.lookup addr with
  | some p =>
    rw [lookup_keyReplace]
    by_cases ha : a = addr
    · subst ha
      rw [hl] at h ⊢
      simp only [Option.map_some] at h ⊢
      exact congrArg some (mergeProfile_keeps_whale threshold p d (Option.some.inj h))
    · simp [ha, h]
  | none =>
    rw [lookup_append_isSome]
    · exact h
    · cases hx : tbl.lookup a with
      | some p => simp
      | none => rw [hx] at h; simp at h

theorem mergeWalletRows_keeps_whale (threshold : Int)
    (wallets : List (String × WalletDelta)) :
    ∀ (tbl : List (String × WalletProfile)) (a : String),
      (tbl.lookup a).map WalletProfile.is_whale = some true →
      ((mergeWalletRows threshold tbl wallets).lookup a).map WalletProfile.is_whale =
        some true := by
  induction wallets with
  | nil => intro tbl a h; exact h
  | cons w ws ih =>
    intro tbl a h
    simp only [mergeWalletRows, List.foldl_cons] at *
    exact ih _ a (upsertProfile_keeps_whale threshold tbl w.1 a w.2 h)

/-- C5 (Whale monotonicity).  CONFIRMED: whatever batch and wallet deltas are
merged next — including a delta contributing zero volume for the address — an
address whose stored `is_whale` flag is true still has it true after
`save_batch_to_db`; the `ON CONFLICT` `CASE` only ever sets the flag or keeps
it, never clears it. -/
theorem whale_flag_monotone (threshold : Int) (db : DBState)
    (blocks_data : List (Option BlockData)) (wallets : List (String × WalletDelta))
    (addr : String)
    (h : (db.wallet_profiles.lookup addr).map WalletProfile.is_whale = some true) :
    ((save_batch_to_db threshold db blocks_data wallets).wallet_profiles.lookup
        addr).map WalletProfile.is_whale = some true :=
  mergeWalletRows_keeps_whale threshold wallets db.wallet_profiles addr h

/-- Witness for C5: the concrete zero-volume merge leaves the flag set. -/
theorem whale_flag_monotone_witness :
    ((dbC5.wallet_profiles.lookup "0xd").map WalletProfile.is_whale = some true) ∧
    (((save_batch_to_db sourceConfig.whale_threshold_wei dbC5 []
          [("0xd", deltaC5)]).wallet_profiles.lookup "0xd").map WalletProfile.is_whale =
      some true) :=
  ⟨by decide,
   whale_flag_monotone sourceConfig.whale_threshold_wei dbC5 [] [("0xd", deltaC5)]
     "0xd" (by decide)⟩

/-- C8 counterexample.  With checkpoint 0 and chain head 5000, `resume_indexing`
computes start `max(0, 5000 - 10000) = 0` — the lookback is the hard-coded
10000 of the source, there is no configured lookback of 1000 — so it indexes
`[0, 5000]`, not `[4000, 5000]`: the genesis-height transaction is persisted
and the checkpoint ends at 5000. -/
theorem resume_fresh_reaches_genesis :
    (resume_range 0 5000 = some (0, 5000)) ∧
    (some ((0 : Nat), (5000 : Nat)) ≠ some (4000, 5000)) ∧
    ((resume_indexing sourceConfig fetchC8 5000 none emptyDB).transactions =
      [("0x8", txC8)]) ∧
    (get_checkpoint (resume_indexing sourceConfig fetchC8 5000 none emptyDB) = 5000) := by
  decide

/-- C8 as amended (the lookback is the fixed 10000 of the source, not a
configured 1000): `resume_indexing` reads checkpoint `c`; if `c ≥ target` it
is a no-op leaving the whole store — transactions, profiles, checkpoint —
unchanged; if `0 < c < target` it indexes exactly `[c+1, target]`; and if
`c = 0` it indexes `[max(0, target - 10000), target]`, which for a head
within 10000 of genesis starts at 0. -/
theorem resume_semantics :
    (∀ l t : Nat, t ≤ l → resume_range l t = none) ∧
    (∀ l t : Nat, 0 < l → l < t → resume_range l t = some (l + 1, t)) ∧
    (∀ t : Nat, 0 < t → resume_range 0 t = some (max 0 (t - 10000), t)) ∧
    (∀ (cfg : Config) (fetch : Nat → Option BlockData) (head t : Nat) (db : DBState),
      t ≠ 0 → t ≤ get_checkpoint db →
      resume_indexing cfg fetch head (some t) db = db) ∧
    (∀ (cfg : Config) (fetch : Nat → Option BlockData) (head t : Nat) (db : DBState),
      t ≠ 0 → 0 < get_checkpoint db → get_checkpoint db < t →
      resume_indexing cfg fetch head (some t) db =
        index_range cfg fetch db (get_checkpoint db + 1) t) := by
  refine ⟨?_, ?_, ?_, ?_, ?_⟩
  · intro l t h; simp [resume_range, h]
  · intro l t h0 hlt
    simp [resume_range, h0, Nat.not_le.mpr hlt]
  · intro t ht
    simp [resume_range, Nat.not_le.mpr ht]
  · intro cfg fetch head t db ht hc
    simp [resume_indexing, ht, resume_range, hc]
  · intro cfg fetch head t db ht h0 hc
    simp [resume_indexing, ht, resume_range, Nat.not_le.mpr hc, h0]

/-- Witness for C8's amended theorem at concrete inputs. -/
theorem resume_semantics_witness :
    (resume_range 5 5 = none) ∧
    (resume_range 3000 5000 = some (3001, 5000)) ∧
    (resume_range 0 5000 = some (max 0 (5000 - 10000), 5000)) ∧
    (resume_indexing sourceConfig (fun _ => none) 7 (some 5) dbC8 = dbC8) ∧
    (resume_indexing sourceConfig (fun _ => none) 7 (some 6) dbC8 =
      index_range sourceConfig (fun _ => none) dbC8 (get_checkpoint dbC8 + 1) 6) :=
  ⟨resume_semantics.1 5 5 (by decide),
   resume_semantics.2.1 3000 5000 (by decide) (by decide),
   resume_semantics.2.2.1 5000 (by decide),
   resume_semantics.2.2.2.1 sourceConfig (fun _ => none) 7 5 dbC8 (by decide) (by decide),
   resume_semantics.2.2.2.2 sourceConfig (fun _ => none) 7 6 dbC8 (by decide) (by decide)
     (by decide)⟩

/-! Lemmas about the batching loop. -/

/-- Past the end of the range, the loop does nothing. -/
theorem index_range_go_past (cfg : Config) (fetch : Nat → Option BlockData) :
    ∀ (fuel : Nat) (db : DBState) (bs eb : Nat), eb < bs →
      index_range_go cfg fetch fuel db bs eb = db := by
  intro fuel db bs eb h
  cases fuel with
  | zero => rfl
  | succ f => rw [index_range_go, if_pos h]

/-- When each batch covers at least one height, an `index_range` loop over a
non-empty range always finishes with the checkpoint cell at `end_block`. -/
theorem index_range_go_ckpt (cfg : Config) (fetch : Nat → Option BlockData)
    (hb : 1 ≤ cfg.batch_size) :
    ∀ (fuel bs : Nat) (db : DBState) (eb : Nat), bs ≤ eb → eb + 1 - bs ≤ fuel →
      (index_range_go cfg fetch fuel db bs eb).checkpoint = some eb := by
  intro fuel
  induction fuel with
  | zero => intro bs db eb h1 h2; omega
  | succ f ih =>
    intro bs db eb h1 h2
    rw [index_range_go, if_neg (Nat.not_lt.mpr h1)]
    rcases Nat.lt_or_ge (min (bs + cfg.batch_size - 1) eb) eb with hlt | hge
    · exact ih (min (bs + cfg.batch_size - 1) eb + 1) _ eb (by omega) (by omega)
    · have heq : min (bs + cfg.batch_size - 1) eb = eb := by omega
      rw [heq, index_range_go_past cfg fetch f _ (eb + 1) eb (by omega)]
      rfl

/-- `index_range` over `[bs, eb]` with `bs ≤ eb` leaves the checkpoint at
`eb`, whatever the fetches return. -/
theorem index_range_checkpoint (cfg : Config) (fetch : Nat → Option BlockData)
    (db : DBState) (bs eb : Nat) (hb : 1 ≤ cfg.batch_size) (h : bs ≤ eb) :
    get_checkpoint (index_range cfg fetch db bs eb) = eb := by
  unfold index_range get_checkpoint
  rw [index_range_go_ckpt cfg fetch hb _ bs db eb h (by omega)]
  rfl

/-- Past the end of the range, the fallible loop does nothing and completes. -/
theorem index_range_run_past (cfg : Config) (fetch : Nat → Option BlockData)
    (pok : Nat → Bool) :
    ∀ (fuel : Nat) (db : DBState) (bs eb : Nat), eb < bs →
      index_range_run cfg fetch pok fuel db bs eb = (db, [], true) := by
  intro fuel db bs eb h
  cases fuel with
  | zero => rfl
  | succ f => rw [index_range_run, if_pos h]

/-- Every checkpoint height written by a run starting at `bs` is at least
`bs`. -/
theorem index_range_run_ckpts_ge (cfg : Config) (fetch : Nat → Option BlockData)
    (pok : Nat → Bool) (hb : 1 ≤ cfg.batch_size) :
    ∀ (fuel : Nat) (db : DBState) (bs eb x : Nat),
      x ∈ checkpointsOf (index_range_run cfg fetch pok fuel db bs eb).2.1 → bs ≤ x := by
  intro fuel
  induction fuel with
  | zero => intro db bs eb x hx; simp [index_range_run, checkpointsOf] at hx
  | succ f ih =>
    intro db bs eb x hx
    rw [index_range_run] at hx
    by_cases h1 : eb < bs
    · rw [if_pos h1] at hx; simp [checkpointsOf] at hx
    · rw [if_neg h1] at hx
      by_cases h2 : pok bs = true
      · simp only [h2, if_true] at hx
        simp only [checkpointsOf, List.filterMap_cons] at hx
        rcases List.mem_cons.mp hx with hx | hx
        · subst hx; omega
        · have := ih _ (min (bs + cfg.batch_size - 1) eb + 1) eb x hx
          omega
      · simp only [h2, if_false] at hx
        simp [checkpointsOf] at hx

/-- The checkpoint writes of a single run are strictly increasing. -/
theorem index_range_run_ckpts_chain (cfg : Config) (fetch : Nat → Option BlockData)
    (pok : Nat → Bool) (hb : 1 ≤ cfg.batch_size) :
    ∀ (fuel : Nat) (db : DBState) (bs eb : Nat),
      List.Chain' (· < ·)
        (checkpointsOf (index_range_run cfg fetch pok fuel db bs eb).2.1) := by
  intro fuel
  induction fuel with
  | zero => intro db bs eb; simp [index_range_run, checkpointsOf]
  | succ f ih =>
    intro db bs eb
    rw [index_range_run]
    by_cases h1 : eb < bs
    · rw [if_pos h1]; simp [checkpointsOf]
    · rw [if_neg h1]
      by_cases h2 : pok bs = true
      · simp only [h2, if_true]
        simp only [checkpointsOf, List.filterMap_cons]
        refine List.chain'_cons'.mpr ⟨?_, ih _ _ _⟩
        intro y hy
        have hmem : y ∈ checkpointsOf
            (index_range_run cfg fetch pok f _ (min (bs + cfg.batch_size - 1) eb + 1)
              eb).2.1 := List.mem_of_mem_head? hy
        have := index_range_run_ckpts_ge cfg fetch pok hb f _ _ eb y hmem
        omega
      · simp only [h2, if_false]; simp [checkpointsOf]

/-- The body of `resume_indexing` never lowers the checkpoint. -/
theorem resume_body_monotone (cfg : Config) (fetch : Nat → Option BlockData)
    (db : DBState) (T : Nat) (hb : 1 ≤ cfg.batch_size) :
    get_checkpoint db ≤
      get_checkpoint
        (match resume_range (get_checkpoint db) T with
          | none => db
          | some (s, t) => index_range cfg fetch db s t) := by
  unfold resume_range
  by_cases h1 : T ≤ get_checkpoint db
  · simp [h1]
  · by_cases h2 : 0 < get_checkpoint db
    · simp only [h1, if_false, h2, if_true]
      rw [index_range_checkpoint cfg fetch db _ T hb (by omega)]
      omega
    · simp only [h1, if_false, h2, if_true]
      rw [index_range_checkpoint cfg fetch db _ T hb (by omega)]
      omega

/-- C10 counterexample.  Checkpoint is NOT non-decreasing across the command
surface: after `index_range 1000 1000` stores checkpoint 1000, a subsequent
`index_range 100 200` on the same store overwrites it with 200 — every
`save_checkpoint` is an unconditional `INSERT OR REPLACE` with no
monotonicity guard. -/
theorem checkpoint_overwritten_lower :
    (get_checkpoint (index_range sourceConfig (fun _ => none) emptyDB 1000 1000) = 1000) ∧
    (get_checkpoint
        (index_range sourceConfig (fun _ => none)
          (index_range sourceConfig (fun _ => none) emptyDB 1000 1000) 100 200) = 200) ∧
    ((200 : Nat) < 1000) := by decide

/-- C10 as amended: the checkpoint writes WITHIN one `index_range` run are
strictly increasing (batches are processed in increasing height order), and
`resume_indexing` — which derives its start from the stored checkpoint —
never lowers the stored checkpoint; but an `index_range`/`index_latest`
invoked on a range below the stored checkpoint does overwrite it with a lower
value, as `save_checkpoint` has no monotonicity guard
(`checkpoint_overwritten_lower`). -/
theorem checkpoint_monotone_within_run_and_resume :
    (∀ (cfg : Config) (fetch : Nat → Option BlockData) (pok : Nat → Bool)
        (db : DBState) (bs eb : Nat), 1 ≤ cfg.batch_size →
      List.Chain' (· < ·)
        (checkpointsOf (index_range_chk cfg fetch pok db bs eb).2.1)) ∧
    (∀ (cfg : Config) (fetch : Nat → Option BlockData) (head : Nat)
        (tq : Option Nat) (db : DBState), 1 ≤ cfg.batch_size →
      get_checkpoint db ≤ get_checkpoint (resume_indexing cfg fetch head tq db)) := by
  constructor
  · intro cfg fetch pok db bs eb hb
    exact index_range_run_ckpts_chain cfg fetch pok hb _ db bs eb
  · intro cfg fetch head tq db hb
    unfold resume_indexing
    exact resume_body_monotone cfg fetch db _ hb

/-- Witness for C10's amended theorem at concrete inputs. -/
theorem checkpoint_monotone_witness :
    (List.Chain' (· < ·)
      (checkpointsOf
        (index_range_chk sourceConfig (fun _ => none) (fun _ => true) emptyDB
            100 350).2.1)) ∧
    (get_checkpoint dbC8 ≤
      get_checkpoint (resume_indexing sourceConfig (fun _ => none) 7 none dbC8)) :=
  ⟨checkpoint_monotone_within_run_and_resume.1 sourceConfig (fun _ => none)
      (fun _ => true) emptyDB 100 350 (by decide),
   checkpoint_monotone_within_run_and_resume.2 sourceConfig (fun _ => none) 7 none
     dbC8 (by decide)⟩

/-- In any run trace, a checkpoint write for batch end `b` is preceded by the
committed persist of the same batch. -/
theorem index_range_run_ckpt_after_persist (cfg : Config)
    (fetch : Nat → Option BlockData) (pok : Nat → Bool) :
    ∀ (fuel : Nat) (db : DBState) (bs eb n b : Nat),
      (index_range_run cfg fetch pok fuel db bs eb).2.1[n]? =
        some (.checkpointEv b) →
      ∃ m, m < n ∧
        (index_range_run cfg fetch pok fuel db bs eb).2.1[m]? =
          some (.persistEv b) := by
  intro fuel
  induction fuel with
  | zero => intro db bs eb n b hn; simp [index_range_run] at hn
  | succ f ih =>
    intro db bs eb n b hn
    rw [index_range_run] at hn ⊢
    by_cases h1 : eb < bs
    · rw [if_pos h1] at hn; simp at hn
    · rw [if_neg h1] at hn ⊢
      by_cases h2 : pok bs = true
      · simp only [h2, if_true] at hn ⊢
        match n with
        | 0 => simp at hn
        | 1 =>
          refine ⟨0, by omega, ?_⟩
          simp only [List.getElem?_cons_zero] at hn ⊢
          simp only [List.getElem?_cons_succ, List.getElem?_cons_zero] at hn
          cases hn
          rfl
        | n + 2 =>
          simp only [List.getElem?_cons_succ] at hn
          obtain ⟨m, hm, hmev⟩ := ih _ _ eb n b hn
          exact ⟨m + 2, by omega, by simpa using hmev⟩
      · simp only [h2, if_false] at hn
        simp at hn

/-- The checkpoint cell after a run is exactly the replay of the checkpoint
writes of its trace: no other step touches it. -/
theorem index_range_run_replay (cfg : Config) (fetch : Nat → Option BlockData)
    (pok : Nat → Bool) :
    ∀ (fuel : Nat) (db : DBState) (bs eb : Nat),
      (index_range_run cfg fetch pok fuel db bs eb).1.checkpoint =
        replayCheckpoint db.checkpoint
          (index_range_run cfg fetch pok fuel db bs eb).2.1 := by
  intro fuel
  induction fuel with
  | zero => intro db bs eb; simp [index_range_run, replayCheckpoint]
  | succ f ih =>
    intro db bs eb
    rw [index_range_run]
    by_cases h1 : eb < bs
    · rw [if_pos h1]; simp [replayCheckpoint]
    · rw [if_neg h1]
      by_cases h2 : pok bs = true
      · simp only [h2, if_true]
        simp only [replayCheckpoint, List.foldl_cons]
        exact ih _ _ eb
      · simp only [h2, if_false]; simp [replayCheckpoint]

/-- C3 (Data before checkpoint).  CONFIRMED: (i) in every run trace, the
checkpoint write for a batch's last height appears strictly after the
committed data write of that same batch, so a crash between the two leaves
the checkpoint lagging behind persisted data, never ahead; (ii) the stored
checkpoint is exactly the replay of the trace's checkpoint writes (no hidden
write); (iii) a persistence failure on a batch aborts the run with the store
— data and checkpoint — exactly as before that batch. -/
theorem checkpoint_after_data :
    (∀ (cfg : Config) (fetch : Nat → Option BlockData) (pok : Nat → Bool)
        (db : DBState) (bs eb n b : Nat),
      (index_range_chk cfg fetch pok db bs eb).2.1[n]? = some (.checkpointEv b) →
      ∃ m, m < n ∧
        (index_range_chk cfg fetch pok db bs eb).2.1[m]? = some (.persistEv b)) ∧
    (∀ (cfg : Config) (fetch : Nat → Option BlockData) (pok : Nat → Bool)
        (db : DBState) (bs eb : Nat),
      (index_range_chk cfg fetch pok db bs eb).1.checkpoint =
        replayCheckpoint db.checkpoint (index_range_chk cfg fetch pok db bs eb).2.1) ∧
    (∀ (cfg : Config) (fetch : Nat → Option BlockData) (pok : Nat → Bool)
        (db : DBState) (bs eb : Nat), bs ≤ eb → pok bs = false →
      index_range_chk cfg fetch pok db bs eb = (db, [], false)) := by
  refine ⟨?_, ?_, ?_⟩
  · intro cfg fetch pok db bs eb n b hn
    exact index_range_run_ckpt_after_persist cfg fetch pok _ db bs eb n b hn
  · intro cfg fetch pok db bs eb
    exact index_range_run_replay cfg fetch pok _ db bs eb
  · intro cfg fetch pok db bs eb h1 h2
    obtain ⟨f, hf⟩ : ∃ f, eb + 1 - bs = f + 1 := ⟨eb - bs, by omega⟩
    unfold index_range_chk
    rw [hf, index_range_run, if_neg (Nat.not_lt.mpr h1)]
    simp [h2]

/-- Witness for C3 at concrete inputs: the one-batch trace
`[persistEv 100, checkpointEv 100]`, and a first-batch persistence failure
leaving the store untouched. -/
theorem checkpoint_after_data_witness :
    (∃ m, m < 1 ∧
      (index_range_chk sourceConfig (fun _ => none) (fun _ => true) emptyDB
          100 100).2.1[m]? = some (.persistEv 100)) ∧
    (index_range_chk sourceConfig (fun _ => none) (fun _ => false) emptyDB 100 104 =
      (emptyDB, [], false)) :=
  ⟨checkpoint_after_data.1 sourceConfig (fun _ => none) (fun _ => true) emptyDB
      100 100 1 100 (by decide),
   checkpoint_after_data.2.2 sourceConfig (fun _ => none) (fun _ => false) emptyDB
     100 104 (by decide) rfl⟩

/-! Provenance and key-presence lemmas for the transactions table. -/

theorem mem_upsertTx (t : List (String × Tx)) (tx : Tx) (pr : String × Tx)
    (h : pr ∈ upsertTx t tx) : pr ∈ t ∨ pr = (tx.hash, tx) := by
  unfold upsertTx at h
  split at h
  · obtain ⟨q, hq, hfq⟩ := List.mem_map.mp h
    by_cases hk : q.1 = tx.hash
    · right; rw [if_pos hk] at hfq; exact hfq.symm
    · left; rw [if_neg hk] at hfq; exact hfq ▸ hq
  · rcases List.mem_append.mp h with h | h
    · exact Or.inl h
    · exact Or.inr (List.mem_singleton.mp h)

theorem mem_foldl_upsertTx (txs : List Tx) :
    ∀ (t : List (String × Tx)) (pr : String × Tx), pr ∈ txs.foldl upsertTx t →
      pr ∈ t ∨ ∃ tx ∈ txs, pr = (tx.hash, tx) := by
  induction txs with
  | nil => intro t pr h; exact Or.inl h
  | cons ty tys ih =>
    intro t pr h
    rw [List.foldl_cons] at h
    rcases ih _ pr h with h | ⟨tx, htx, hpr⟩
    · rcases mem_upsertTx t ty pr h with h | h
      · exact Or.inl h
      · exact Or.inr ⟨ty, List.mem_cons_self _ _, h⟩
    · exact Or.inr ⟨tx, List.mem_cons_of_mem _ htx, hpr⟩

theorem mem_writeTxRows (blocks : List (Option BlockData)) :
    ∀ (t : List (String × Tx)) (pr : String × Tx), pr ∈ writeTxRows t blocks →
      pr ∈ t ∨ ∃ b tx, some b ∈ blocks ∧ tx ∈ b.transactions ∧ pr = (tx.hash, tx) := by
  induction blocks with
  | nil => intro t pr h; exact Or.inl h
  | cons ob obs ih =>
    intro t pr h
    unfold writeTxRows at h ih
    rw [List.foldl_cons] at h
    cases ob with
    | none =>
      rcases ih _ pr h with h | ⟨b, tx, hb, htx, hpr⟩
      · exact Or.inl h
      · exact Or.inr ⟨b, tx, List.mem_cons_of_mem _ hb, htx, hpr⟩
    | some b0 =>
      rcases ih _ pr h with h | ⟨b, tx, hb, htx, hpr⟩
      · rcases mem_foldl_upsertTx b0.transactions t pr h with h | ⟨tx, htx, hpr⟩
        · exact Or.inl h
        · exact Or.inr ⟨b0, tx, List.mem_cons_self _ _, htx, hpr⟩
      · exact Or.inr ⟨b, tx, List.mem_cons_of_mem _ hb, htx, hpr⟩

theorem lookup_upsertTx_self (t : List (String × Tx)) (tx : Tx) :
    ((upsertTx t tx).lookup tx.hash).isSome = true := by
  unfold upsertTx
  split
  · next hs =>
    rw [lookup_keyReplace, if_pos rfl]
    cases hx : t.lookup tx.hash with
    | some v => simp
    | none => rw [hx] at hs; simp at hs
  · next hs =>
    rw [lookup_append_none]
    · simp [lookup_cons_pair]
    · cases hx : t.lookup tx.hash with
      | some v => rw [hx] at hs; simp at hs
      | none => rfl

theorem lookup_upsertTx_mono (t : List (String × Tx)) (tx : Tx) (a : String)
    (h : (t.lookup a).isSome = true) :
    ((upsertTx t tx).lookup a).isSome = true := by
  unfold upsertTx
  split
  · rw [lookup_keyReplace]
    by_cases ha : a = tx.hash
    · rw [if_pos ha]
      cases hx : t.lookup a with
      | some v => simp
      | none => rw [hx] at h; simp at h
    · rw [if_neg ha]; exact h
  · rw [lookup_append_isSome _ _ _ h]; exact h

theorem foldl_upsertTx_mono (txs : List Tx) :
    ∀ (t : List (String × Tx)) (a : String), (t.lookup a).isSome = true →
      ((txs.foldl upsertTx t).lookup a).isSome = true := by
  induction txs with
  | nil => intro t a h; exact h
  | cons ty tys ih =>
    intro t a h
    rw [List.foldl_cons]
    exact ih _ a (lookup_upsertTx_mono t ty a h)

theorem foldl_upsertTx_present (txs : List Tx) (tx : Tx) (htx : tx ∈ txs) :
    ∀ t : List (String × Tx), ((txs.foldl upsertTx t).lookup tx.hash).isSome = true := by
  induction txs with
  | nil => cases htx
  | cons ty tys ih =>
    intro t
    rw [List.foldl_cons]
    rcases List.mem_cons.mp htx with h | h
    · subst h
      exact foldl_upsertTx_mono tys _ _ (lookup_upsertTx_self t tx)
    · exact ih h _

theorem writeTxRows_mono (blocks : List (Option BlockData)) :
    ∀ (t : List (String × Tx)) (a : String), (t.lookup a).isSome = true →
      ((writeTxRows t blocks).lookup a).isSome = true := by
  induction blocks with
  | nil => intro t a h; exact h
  | cons ob obs ih =>
    intro t a h
    unfold writeTxRows at ih ⊢
    rw [List.foldl_cons]
    cases ob with
    | none => exact ih _ a h
    | some b => exact ih _ a (foldl_upsertTx_mono b.transactions t a h)

theorem writeTxRows_present (blocks : List (Option BlockData)) (b : BlockData)
    (tx : Tx) (hb : some b ∈ blocks) (htx : tx ∈ b.transactions) :
    ∀ t : List (String × Tx), ((writeTxRows t blocks).lookup tx.hash).isSome = true := by
  induction blocks with
  | nil => cases hb
  | cons ob obs ih =>
    intro t
    unfold writeTxRows at ih ⊢
    rw [List.foldl_cons]
    rcases List.mem_cons.mp hb with h | h
    · subst h
      exact writeTxRows_mono obs _ _ (foldl_upsertTx_present b.transactions tx htx t)
    · cases ob with
      | none => exact ih h _
      | some b0 => exact ih h _

/-- C6 (Soft-fail isolation).  CONFIRMED on the spec's scenario, generalised
over every fetcher for which height 102 soft-fails: `index_range` over
`[100,104]` (one batch) equals the one-batch pipeline over only the
successfully fetched heights `{100,101,103,104}` — so wallet profiles reflect
exactly those heights — the checkpoint still advances to 104, every persisted
row originates from one of those four heights, and every transaction of a
successfully fetched height is present in the table. -/
theorem soft_fail_isolation (fetch : Nat → Option BlockData)
    (h102 : fetch 102 = none) :
    (index_range sourceConfig fetch emptyDB 100 104 =
      save_checkpoint
        (save_batch_to_db sourceConfig.whale_threshold_wei emptyDB
          (([100, 101, 103, 104].filterMap fetch).map some)
          (extract_wallets_from_batch
            (([100, 101, 103, 104].filterMap fetch).map some)))
        104) ∧
    (get_checkpoint (index_range sourceConfig fetch emptyDB 100 104) = 104) ∧
    (∀ pr ∈ (index_range sourceConfig fetch emptyDB 100 104).transactions,
      ∃ hgt, hgt ∈ ([100, 101, 103, 104] : List Nat) ∧
        ∃ b, fetch hgt = some b ∧ pr.2 ∈ b.transactions) ∧
    (∀ hgt ∈ ([100, 101, 103, 104] : List Nat), ∀ b, fetch hgt = some b →
      ∀ tx ∈ b.transactions,
        (((index_range sourceConfig fetch emptyDB 100 104).transactions.lookup
            tx.hash)).isSome = true) := by
  have hmain : index_range sourceConfig fetch emptyDB 100 104 =
      save_checkpoint
        (save_batch_to_db sourceConfig.whale_threshold_wei emptyDB
          (([100, 101, 103, 104].filterMap fetch).map some)
          (extract_wallets_from_batch
            (([100, 101, 103, 104].filterMap fetch).map some)))
        104 := by
    have hbd : (List.range' 100 (104 + 1 - 100)).filterMap fetch =
        [100, 101, 103, 104].filterMap fetch := by
      have h1 : List.range' 100 (104 + 1 - 100) = [100, 101, 102, 103, 104] := by decide
      rw [h1,
        show ([100, 101, 102, 103, 104] : List Nat) = [100, 101] ++ 102 :: [103, 104]
          from rfl,
        show ([100, 101, 103, 104] : List Nat) = [100, 101] ++ [103, 104] from rfl,
        List.filterMap_append, List.filterMap_append]
      congr 1
      rw [List.filterMap_cons, h102]
    unfold index_range
    rw [show (104 + 1 - 100 : Nat) = 4 + 1 from rfl, index_range_go,
      if_neg (by omega : ¬(104 : Nat) < 100)]
    simp only []
    rw [show min (100 + sourceConfig.batch_size - 1) 104 = 104 from by decide]
    rw [hbd]
    rw [index_range_go_past sourceConfig fetch 4 _ (104 + 1) 104 (by omega)]
  have htx : (index_range sourceConfig fetch emptyDB 100 104).transactions =
      writeTxRows [] (([100, 101, 103, 104].filterMap fetch).map some) := by
    rw [hmain]; rfl
  refine ⟨hmain, ?_, ?_, ?_⟩
  · exact index_range_checkpoint sourceConfig fetch emptyDB 100 104 (by decide) (by omega)
  · intro pr hpr
    rw [htx] at hpr
    rcases mem_writeTxRows _ _ _ hpr with h | ⟨b, tx, hb, htxm, hpr'⟩
    · cases h
    · obtain ⟨x, hx, hxeq⟩ := List.mem_map.mp hb
      cases hxeq
      obtain ⟨hgt, hh, hfh⟩ := List.mem_filterMap.mp hx
      exact ⟨hgt, hh, b, hfh, by rw [hpr']; exact htxm⟩
  · intro hgt hh b hfb tx htxm
    rw [htx]
    exact writeTxRows_present _ b tx
      (List.mem_map_of_mem some (List.mem_filterMap.mpr ⟨hgt, hh, hfb⟩)) htxm []

/-- Witness for C6 at the concrete scenario fetcher. -/
theorem soft_fail_isolation_witness :
    (get_checkpoint (index_range sourceConfig fetchC6 emptyDB 100 104) = 104) ∧
    (((index_range sourceConfig fetchC6 emptyDB 100 104).transactions.lookup
        "0x6").isSome = true) :=
  ⟨(soft_fail_isolation fetchC6 rfl).2.1,
   (soft_fail_isolation fetchC6 rfl).2.2.2 100 (by decide)
     { block_number := 100, timestamp := 100, transactions := [txC6] } (by decide)
     txC6 (by decide)⟩

/-- C7 counterexample.  When fetching height 102 exhausts all retries
(`MaxRetriesExceeded`), the exception is caught by `get_block_fast`'s blanket
`except` and converted to a soft per-height failure (`None`): the run is NOT
aborted — the batch persists the other heights' data and the checkpoint
advances to 104, past the unfetched height 102. -/
theorem max_retries_absorbed :
    ((retry_with_backoff sourceConfig 4 outcomesC7 0).1 = .maxRetriesExceeded) ∧
    (get_block_fast sourceConfig 4 outcomesC7 0 102 = none) ∧
    (get_checkpoint (index_range sourceConfig fetchC7 emptyDB 100 104) = 104) ∧
    (((index_range sourceConfig fetchC7 emptyDB 100 104).transactions.lookup
        "0x7").isSome = true) ∧
    (∀ pr ∈ (index_range sourceConfig fetchC7 emptyDB 100 104).transactions,
      pr.2.block_number ≠ 102) := by decide

/-- C7 as amended: retry exhaustion during a per-height block fetch is
absorbed by `get_block_fast` as a soft failure (`None`) — it is not surfaced
to `index_range` — and an `index_range`/`index_latest` run therefore always
completes and advances the checkpoint to the end of the range, whatever the
fetches return. -/
theorem max_retries_soft_failure :
    (∀ (cfg : Config) (nE : Nat) (outcomes : Nat → Nat → Attempt) (rpc h : Nat),
      (retry_with_backoff cfg nE outcomes rpc).1 = .maxRetriesExceeded →
      get_block_fast cfg nE outcomes rpc h = none) ∧
    (∀ (cfg : Config) (fetch : Nat → Option BlockData) (db : DBState) (bs eb : Nat),
      1 ≤ cfg.batch_size → bs ≤ eb →
      get_checkpoint (index_range cfg fetch db bs eb) = eb) := by
  constructor
  · intro cfg nE outcomes rpc h hmax
    unfold get_block_fast
    rw [hmax]
  · intro cfg fetch db bs eb hb hle
    exact index_range_checkpoint cfg fetch db bs eb hb hle

/-- Witness for C7's amended theorem at concrete inputs. -/
theorem max_retries_soft_failure_witness :
    (get_block_fast sourceConfig 4 outcomesC7 0 102 = none) ∧
    (get_checkpoint (index_range sourceConfig (fun _ => none) emptyDB 5 9) = 9) :=
  ⟨max_retries_soft_failure.1 sourceConfig 4 outcomesC7 0 102 (by decide),
   max_retries_soft_failure.2 sourceConfig (fun _ => none) emptyDB 5 9 (by decide)
     (by decide)⟩

/-! The retry executor's behaviour on an all-retryable failure streak. -/

theorem retry_go_all_retry (cfg : Config) (nE : Nat)
    (outcomes : Nat → Nat → Attempt) (er : Nat)
    (hall : ∀ k, isRetryFailure (outcomes k er)) :
    ∀ rem a d r, retry_go cfg nE outcomes er rem a d r =
      (.maxRetriesExceeded, allRetryTrace cfg.max_delay nE er rem a d r) := by
  intro rem
  induction rem with
  | zero => intro a d r; rfl
  | succ n ih =>
    intro a d r
    obtain ⟨msg, hmsg, hret⟩ := hall a
    rw [retry_go, allRetryTrace, hmsg]
    simp only [hret, if_true]
    by_cases ha : 2 ≤ a
    · simp only [ha, if_true, ih]
    · simp only [ha, if_false, ih]

theorem sleepsOf_allRetryTrace (M nE er : Nat) :
    ∀ rem a d r, sleepsOf (allRetryTrace M nE er rem a d r) = delaysChain M d rem := by
  intro rem
  induction rem with
  | zero => intro a d r; rfl
  | succ n ih =>
    intro a d r
    rw [allRetryTrace, delaysChain]
    by_cases ha : 2 ≤ a
    · simp only [ha, if_true, sleepsOf, List.filterMap_cons] at *
      rw [ih]
    · simp only [ha, if_false, sleepsOf, List.filterMap_cons] at *
      rw [ih]

theorem delaysChain_step (b M k : Nat) :
    min (min (b * 2 ^ k) M * 2) M = min (b * 2 ^ (k + 1)) M := by
  rcases le_total (b * 2 ^ k) M with h | h
  · rw [min_eq_left h, pow_succ, ← Nat.mul_assoc]
  · rw [min_eq_right h]
    have h2 : M ≤ b * 2 ^ (k + 1) := by
      calc M ≤ b * 2 ^ k := h
        _ ≤ b * 2 ^ (k + 1) :=
          Nat.mul_le_mul_left b (Nat.pow_le_pow_right (by omega) (by omega))
    rw [min_eq_right (by omega), min_eq_right h2]

theorem delaysChain_formula (b M : Nat) :
    ∀ rem k, delaysChain M (min (b * 2 ^ k) M) rem =
      (List.range rem).map (fun j => min (b * 2 ^ (k + j)) M) := by
  intro rem
  induction rem with
  | zero => intro k; rfl
  | succ n ih =>
    intro k
    rw [delaysChain, delaysChain_step, ih (k + 1), List.range_succ_eq_map,
      List.map_cons, List.map_map]
    refine congrArg₂ _ (by rw [Nat.add_zero]) ?_
    refine List.map_congr_left fun j _ => ?_
    have : k + 1 + j = k + Nat.succ j := by omega
    rw [this]; rfl

theorem switchesOf_allRetryTrace_ge2 (M nE er : Nat) :
    ∀ rem a d r, 2 ≤ a →
      switchesOf (allRetryTrace M nE er rem a d r) =
        (List.range rem).map (fun j => (r + (j + 1)) % nE) := by
  intro rem
  induction rem with
  | zero => intro a d r _; rfl
  | succ n ih =>
    intro a d r ha
    rw [allRetryTrace]
    simp only [ha, if_true, switchesOf, List.filterMap_cons]
    have ih2 := ih (a + 1) (min (d * 2) M) ((r + 1) % nE) (by omega)
    simp only [switchesOf] at ih2
    rw [ih2, List.range_succ_eq_map, List.map_cons, List.map_map]
    refine congrArg₂ _ rfl ?_
    refine List.map_congr_left fun j _ => ?_
    show ((r + 1) % nE + (j + 1)) % nE = (r + (Nat.succ j + 1)) % nE
    rw [Nat.mod_add_mod]
    refine congrArg (· % nE) (by omega)

theorem switchesOf_allRetryTrace_zero (M nE er : Nat) :
    ∀ rem d r, switchesOf (allRetryTrace M nE er rem 0 d r) =
      (List.range (rem - 2)).map (fun j => (r + (j + 1)) % nE) := by
  intro rem
  match rem with
  | 0 => intro d r; rfl
  | 1 =>
    intro d r
    rw [allRetryTrace]
    simp [switchesOf, allRetryTrace, List.filterMap_cons]
  | n + 2 =>
    intro d r
    rw [allRetryTrace]
    simp only [show ¬(2 ≤ 0) by omega, if_false]
    rw [allRetryTrace]
    simp only [show ¬(2 ≤ 1) by omega, if_false]
    simp only [switchesOf, List.filterMap_cons]
    have h := switchesOf_allRetryTrace_ge2 M nE er n 2 (min (min (d * 2) M * 2) M) r
      (by omega)
    simp only [switchesOf] at h
    rw [h, show n + 2 - 2 = n from by omega]

/-- Every attempt of one call runs against the endpoint the operation was
bound to at entry. -/
theorem attemptsOf_allRetryTrace (M nE er : Nat) :
    ∀ rem a d r, attemptsOf (allRetryTrace M nE er rem a d r) =
      List.replicate rem er := by
  intro rem
  induction rem with
  | zero => intro a d r; rfl
  | succ n ih =>
    intro a d r
    rw [allRetryTrace, List.replicate_succ]
    by_cases ha : 2 ≤ a
    · simp only [ha, if_true, attemptsOf, List.filterMap_cons] at *
      rw [ih]
    · simp only [ha, if_false, attemptsOf, List.filterMap_cons] at *
      rw [ih]

/-- C9 counterexample.  `_retry_with_backoff` is handed the already-bound
operation `self.w3.eth.get_block`, evaluated before its loop; `_switch_rpc`
only reassigns `self.w3` and `current_rpc_index`, which cannot rebind the
captured operation.  Against an operation that is rate-limited on endpoint 0
but would succeed on any other endpoint, the call starting at endpoint 0
records three switches yet still makes all five attempts on endpoint 0 and
fails with `MaxRetriesExceeded` — attempt 3, which per the claim runs on the
switched endpoint 1 where the operation succeeds, in fact does not:
subsequent attempts do NOT use the new endpoint. -/
theorem switch_not_used_within_call :
    ((retry_with_backoff sourceConfig 4 outcomesC9sw 0).1 = .maxRetriesExceeded) ∧
    (attemptsOf (retry_with_backoff sourceConfig 4 outcomesC9sw 0).2 =
      [0, 0, 0, 0, 0]) ∧
    (switchesOf (retry_with_backoff sourceConfig 4 outcomesC9sw 0).2 = [1, 2, 3]) ∧
    (outcomesC9sw 3 1 = .success rawC9) ∧
    (([0, 0, 0, 0, 0] : List Nat) ≠ [0, 0, 0, 1, 2]) := by decide

/-- C9 as amended (the executor's endpoint switch updates the connection
state for LATER calls; it does not redirect the remaining attempts of the
current call, whose operation was bound at entry): on an unbroken streak of
retryable (rate-limit/timeout) failures the executor makes exactly
`MAX_RETRIES` attempts and then fails with `MaxRetriesExceeded`; the sleeps
before the retries are `BASE_DELAY` doubling each attempt capped at
`MAX_DELAY` (`min (base * 2^k) max`); from the third consecutive retryable
failure on it switches `current_rpc_index` before the next attempt, walking
the candidate list with wrap-around (`(r0 + j + 1) % nE`); every attempt of
the call runs against the entry endpoint `r0`.  A failure classified neither
retryable nor connection is re-raised at once: the call ends `fatalErr` after
that single attempt, with no sleep and no switch. -/
theorem retry_backoff_behavior :
    (∀ (cfg : Config) (nE : Nat) (outcomes : Nat → Nat → Attempt) (r0 : Nat),
      cfg.base_delay ≤ cfg.max_delay →
      (∀ k, isRetryFailure (outcomes k r0)) →
      ((retry_with_backoff cfg nE outcomes r0).1 = .maxRetriesExceeded ∧
       sleepsOf (retry_with_backoff cfg nE outcomes r0).2 =
         (List.range cfg.max_retries).map
           (fun k => min (cfg.base_delay * 2 ^ k) cfg.max_delay) ∧
       switchesOf (retry_with_backoff cfg nE outcomes r0).2 =
         (List.range (cfg.max_retries - 2)).map (fun j => (r0 + (j + 1)) % nE) ∧
       attemptsOf (retry_with_backoff cfg nE outcomes r0).2 =
         List.replicate cfg.max_retries r0)) ∧
    (∀ (cfg : Config) (nE : Nat) (outcomes : Nat → Nat → Attempt)
        (er rem a d r : Nat) (msg : String),
      outcomes a er = .failure msg → isRetryableErr msg = false →
      isConnectionErr msg = false →
      retry_go cfg nE outcomes er (rem + 1) a d r =
        (.fatalErr msg, [.attemptEv er])) := by
  constructor
  · intro cfg nE outcomes r0 hbM hall
    have htr := retry_go_all_retry cfg nE outcomes r0 hall cfg.max_retries 0
      cfg.base_delay r0
    unfold retry_with_backoff
    rw [htr]
    refine ⟨rfl, ?_, ?_, ?_⟩
    · show sleepsOf (allRetryTrace cfg.max_delay nE r0 cfg.max_retries 0
        cfg.base_delay r0) = _
      rw [sleepsOf_allRetryTrace]
      have hb0 : cfg.base_delay = min (cfg.base_delay * 2 ^ 0) cfg.max_delay := by
        rw [pow_zero, Nat.mul_one, min_eq_left hbM]
      conv_lhs => rw [hb0]
      rw [delaysChain_formula]
      exact List.map_congr_left fun j _ => by rw [Nat.zero_add]
    · exact switchesOf_allRetryTrace_zero cfg.max_delay nE r0 cfg.max_retries
        cfg.base_delay r0
    · exact attemptsOf_allRetryTrace cfg.max_delay nE r0 cfg.max_retries 0
        cfg.base_delay r0
  · intro cfg nE outcomes er rem a d r msg hout hret hconn
    rw [retry_go, hout]
    simp [hret, hconn]

/-- Witness for C9's amended theorem at the source configuration (5 attempts,
base 1s, cap 60s) against 4 endpoints starting at index 0: sleeps
`[1,2,4,8,16]`, switches `[1,2,3]`, all five attempts on the entry endpoint
0; and a fatal error propagates at once. -/
theorem retry_backoff_behavior_witness :
    ((retry_with_backoff sourceConfig 4 outcomesC9 0).1 = .maxRetriesExceeded ∧
     sleepsOf (retry_with_backoff sourceConfig 4 outcomesC9 0).2 =
       (List.range sourceConfig.max_retries).map
         (fun k => min (sourceConfig.base_delay * 2 ^ k) sourceConfig.max_delay) ∧
     switchesOf (retry_with_backoff sourceConfig 4 outcomesC9 0).2 =
       (List.range (sourceConfig.max_retries - 2)).map (fun j => (0 + (j + 1)) % 4) ∧
     attemptsOf (retry_with_backoff sourceConfig 4 outcomesC9 0).2 =
       List.replicate sourceConfig.max_retries 0) ∧
    (retry_go sourceConfig 4 outcomesC9fatal 0 (0 + 1) 0 1 0 =
      (.fatalErr "bad block data", [.attemptEv 0])) :=
  ⟨retry_backoff_behavior.1 sourceConfig 4 outcomesC9 0 (by decide)
     (fun _ => ⟨"429 rate limited", rfl, by decide⟩),
   retry_backoff_behavior.2 sourceConfig 4 outcomesC9fatal 0 0 0 1 0
     "bad block data" rfl (by decide) (by decide)⟩

end Avalytics
